import Mathlib

/-!
Verification development for `tf_explain/core/occlusion_sensitivity.py`.

The module computes an occlusion-sensitivity map: for each grid cell of an
input image it replaces a square region by a constant grey patch, re-runs the
model, and records the drop in confidence for a target class, then resizes the
resulting grid to the input image size with `cv2.resize`.

Numeric values are embedded as rationals (`ℚ`), standing in for the floating
point values of the source.  An image is a list of rows, each row a list of
pixels, each pixel a list of channel values, mirroring a numpy array of shape
`(H, W, C)`.
-/

set_option maxHeartbeats 1000000
set_option linter.unusedVariables false

namespace TfExplain

abbrev Pixel := List ℚ

abbrev Image := List (List Pixel)

/-- `image.shape[0]` (the number of rows, i.e. the height). -/
def shape0 (image : Image) : Nat := image.length

/-- `image.shape[1]` (the length of the first row, i.e. the width). -/
def shape1 (image : Image) : Nat := (image.headD []).length

/-- The pixel stored at row `r`, column `c` (empty pixel when out of range). -/
def entryAt (image : Image) (r c : Nat) : Pixel := (image.getD r []).getD c []

/-- A numpy array is rectangular: every row has length `shape1`. -/
def Rectangular (image : Image) : Prop := ∀ row ∈ image, row.length = shape1 image

/-- The constant grey value `127.5` used by `apply_grey_patch`. -/
def greyValue : ℚ := 255 / 2

/-- `math.ceil(a / b)` for natural `a` and positive natural `b`. -/
def ceilDiv (a b : Nat) : Nat := (a + b - 1) / b

/-- Python `range(0, stop, step)` for a positive `step`:
`[0, step, 2*step, ...]`, of length `ceil(stop / step)`. -/
def pyRange (stop step : Nat) : List Nat :=
  (List.range (ceilDiv stop step)).map (· * step)

/-- Modelled from the spec: `tf_explain.utils.image.apply_grey_patch` is code
of this repository that is not under `src/` (only its caller is).  Per the
spec's patch-generator contract it "accepts an image, top-left coordinates,
and a patch size; returns a copy of the image with that square region
overwritten with a uniform grey value", edge regions being "clipped at the
boundary".  Following the universal image convention, the `x` coordinate is
horizontal (a column index) and the `y` coordinate vertical (a row index), so
rows `[top_left_y, top_left_y + patch_size)` and columns
`[top_left_x, top_left_x + patch_size)` are overwritten, clipped to the
image's extent. -/
def apply_grey_patch (image : Image) (top_left_x top_left_y patch_size : Nat) :
    Image :=
  (List.range image.length).map fun r =>
    (List.range ((image.getD r []).length)).map fun c =>
      if top_left_y ≤ r ∧ r < top_left_y + patch_size ∧
          top_left_x ≤ c ∧ c < top_left_x + patch_size then
        ((image.getD r []).getD c []).map fun _ => greyValue
      else
        (image.getD r []).getD c []

/-- A model's batched `predict`: a batch of images and a batch-size hint give
one vector of per-class confidence scores per image. -/
abbrev Model := List Image → Nat → List (List ℚ)

/-- `model.predict(np.array([image]), batch_size=1)[0][class_index]`. -/
def predict_class (model : Model) (image : Image) (class_index : Nat) : ℚ :=
  ((model [image] 1).headD []).getD class_index 0

/-- The `coordinates` list of `get_sensitivity_map`:
`[(index_y, index_x) for index_x in range(shape[1]) for index_y in range(shape[0])]`
over the sensitivity map's shape. -/
def coordinates (mapShape0 mapShape1 : Nat) : List (Nat × Nat) :=
  (List.range mapShape1).flatMap fun index_x =>
    (List.range mapShape0).map fun index_y => (index_y, index_x)

/-- The `target_class_predictions` list of `get_sensitivity_map`: the sweep's
outer loop enumerates `top_left_y` over `range(0, image.shape[1], patch_size)`
and the inner loop enumerates `top_left_x` over
`range(0, image.shape[0], patch_size)`; each step records
`model.predict(np.array([apply_grey_patch(image, top_left_x, top_left_y,
patch_size)]), batch_size=1)[0][class_index]`. -/
def target_class_predictions (model : Model) (image : Image)
    (class_index patch_size : Nat) : List ℚ :=
  (pyRange (shape1 image) patch_size).flatMap fun top_left_y =>
    (pyRange (shape0 image) patch_size).map fun top_left_x =>
      predict_class model
        (apply_grey_patch image top_left_x top_left_y patch_size) class_index

/-- The list of batches passed to `model.predict` during one call to
`get_sensitivity_map`: first the baseline batch `[image]`, then one singleton
batch per sweep step, in sweep order. -/
def inference_batches (image : Image) (patch_size : Nat) : List (List Image) :=
  [image] ::
    ((pyRange (shape1 image) patch_size).flatMap fun top_left_y =>
      (pyRange (shape0 image) patch_size).map fun top_left_x =>
        [apply_grey_patch image top_left_x top_left_y patch_size])

/-- `sensitivity_map[index_y, index_x] = v` on a list-of-rows grid
(out-of-range indices leave the grid unchanged; the sweep only produces
in-range indices). -/
def setCell (m : List (List ℚ)) (index_y index_x : Nat) (v : ℚ) :
    List (List ℚ) :=
  m.set index_y ((m.getD index_y []).set index_x v)

/-- `np.zeros((h, w))`. -/
def zerosMap (h w : Nat) : List (List ℚ) :=
  (List.range h).map fun _ => (List.range w).map fun _ => (0 : ℚ)

/-- The filled pre-resize `sensitivity_map` of `get_sensitivity_map`: a zero
grid of shape `(ceil(H / patch_size), ceil(W / patch_size))` in which, for
each `((index_y, index_x), confidence)` of `zip(coordinates,
target_class_predictions)`, cell `(index_y, index_x)` is set to
`base_confidence - confidence`. -/
def sensitivity_map (model : Model) (image : Image)
    (class_index patch_size : Nat) : List (List ℚ) :=
  let base_confidence := predict_class model image class_index
  ((coordinates (ceilDiv (shape0 image) patch_size)
        (ceilDiv (shape1 image) patch_size)).zip
      (target_class_predictions model image class_index patch_size)).foldl
    (fun m cp => setCell m cp.1.1 cp.1.2 (base_confidence - cp.2))
    (zerosMap (ceilDiv (shape0 image) patch_size)
      (ceilDiv (shape1 image) patch_size))

/-- Clamp an integer index into `[0, n - 1]` (border replication). -/
def clampIdx (k : Int) (n : Nat) : Nat := (min (max k 0) ((n : Int) - 1)).toNat

/-- Entry of a 2D grid with default `0`. -/
def atD (src : List (List ℚ)) (r c : Nat) : ℚ := (src.getD r []).getD c 0

/-- One bilinearly interpolated sample of `cv2.resize` with `INTER_LINEAR`:
the destination pixel centre `(x + 1/2, y + 1/2)` is mapped into the source,
the four neighbouring source entries (indices clamped at the border) are
blended with the fractional weights. -/
def bilinearAt (src : List (List ℚ)) (srcH srcW dstH dstW y x : Nat) : ℚ :=
  let fy : ℚ := ((y : ℚ) + 1 / 2) * srcH / dstH - 1 / 2
  let fx : ℚ := ((x : ℚ) + 1 / 2) * srcW / dstW - 1 / 2
  let y0 : Int := Int.floor fy
  let x0 : Int := Int.floor fx
  let dy : ℚ := fy - y0
  let dx : ℚ := fx - x0
  (1 - dy) * (1 - dx) * atD src (clampIdx y0 srcH) (clampIdx x0 srcW) +
    (1 - dy) * dx * atD src (clampIdx y0 srcH) (clampIdx (x0 + 1) srcW) +
    dy * (1 - dx) * atD src (clampIdx (y0 + 1) srcH) (clampIdx x0 srcW) +
    dy * dx * atD src (clampIdx (y0 + 1) srcH) (clampIdx (x0 + 1) srcW)

/-- `cv2.resize(src, dsize)` with the default `INTER_LINEAR` interpolation.
Per OpenCV's documented API the `dsize` tuple is `(width, height)`: the
output has `dsize.2` rows and `dsize.1` columns. -/
def cv2_resize (src : List (List ℚ)) (dsize : Nat × Nat) : List (List ℚ) :=
  (List.range dsize.2).map fun y =>
    (List.range dsize.1).map fun x =>
      bilinearAt src src.length (src.headD []).length dsize.2 dsize.1 y x

/-- The `OcclusionSensitivity` object; its only field is the `batch_size`
stored by `__init__` (default `None`). -/
structure OcclusionSensitivity where
  batch_size : Option Nat

/-- `OcclusionSensitivity.get_sensitivity_map`: fill the pre-resize grid and
return `cv2.resize(sensitivity_map, image.shape[0:2])` — the shape tuple
`(H, W)` is passed where cv2 expects `(width, height)`. -/
def OcclusionSensitivity.get_sensitivity_map (self : OcclusionSensitivity)
    (model : Model) (image : Image) (class_index patch_size : Nat) :
    List (List ℚ) :=
  cv2_resize (sensitivity_map model image class_index patch_size)
    (shape0 image, shape1 image)

/-- `OcclusionSensitivity.explain`: unpack `validation_data` as `(images, _)`
— the labels are discarded — compute one sensitivity map per image, render
each through the heatmap collaborator, and arrange them through the grid
collaborator.  `heatmap_display` and `grid_display` are code of this
repository not under `src/`; modelled from the spec ("returns a colorized RGB
overlay" / "arranges them into one composite image") as abstract collaborator
functions passed in as parameters. -/
def OcclusionSensitivity.explain (self : OcclusionSensitivity)
    (heatmap_display : List (List ℚ) → Image → Nat → Image)
    (grid_display : List Image → Image)
    (validation_data : List Image × List (List ℚ)) (model : Model)
    (class_index patch_size colormap : Nat) : Image :=
  let images := validation_data.1
  let sensitivity_maps := images.map fun image =>
    self.get_sensitivity_map model image class_index patch_size
  let heatmaps := (sensitivity_maps.zip images).map fun hi =>
    heatmap_display hi.1 hi.2 colormap
  grid_display heatmaps

/-- The image with every channel of every pixel replaced by the grey value:
the result of occluding the entire image. -/
def greyAll (image : Image) : Image :=
  image.map fun row => row.map fun px => px.map fun _ => greyValue

/-! ### Concrete instances used by counterexamples and witnesses -/

/-- A model that reports, as the confidence of class 0, the channel-0 value of
the pixel at row 0, column 1 of the (single) image in the batch.  It
distinguishes which region of the image has been greyed out. -/
def probeModel : Model := fun batch _ =>
  [[((((batch.headD []).getD 0 []).getD 1 []).getD 0 0)]]

/-- A model that returns confidence `0.9` for class 0 unconditionally. -/
def constModel09 : Model := fun _ _ => [[(9 : ℚ) / 10]]

/-- A 2×2 single-channel image with pairwise distinct pixel values. -/
def img2x2 : Image := [[[1], [2]], [[3], [4]]]

/-- A 2×4 (H = 2, W = 4) single-channel image. -/
def img2x4 : Image := [[[0], [0], [0], [0]], [[0], [0], [0], [0]]]

/-- A 3×3 single-channel image. -/
def img3x3 : Image :=
  [[[1], [2], [3]], [[4], [5], [6]], [[7], [8], [9]]]

/-- A 4×4 single-channel image of constant value 100. -/
def img4x4 : Image :=
  [[[100], [100], [100], [100]], [[100], [100], [100], [100]],
   [[100], [100], [100], [100]], [[100], [100], [100], [100]]]

/-- An `OcclusionSensitivity` instance built with the default
`batch_size=None`. -/
def occNone : OcclusionSensitivity := ⟨none⟩

/-! ### Helper lemmas -/

theorem getD_range_map {α : Type} (n : Nat) (f : Nat → α) (d : α) (r : Nat) :
    ((List.range n).map f).getD r d = if r < n then f r else d := by
  by_cases h : r < n
  · rw [List.getD_eq_getElem _ _ (by simpa using h), List.getElem_map,
      List.getElem_range, if_pos h]
  · rw [List.getD_eq_default _ _ (by simpa using Nat.le_of_not_lt h), if_neg h]

theorem length_pyRange (stop step : Nat) :
    (pyRange stop step).length = ceilDiv stop step := by
  simp [pyRange]

theorem length_apply_grey_patch (image : Image)
    (top_left_x top_left_y patch_size : Nat) :
    (apply_grey_patch image top_left_x top_left_y patch_size).length =
      image.length := by
  simp [apply_grey_patch]

theorem row_length_apply_grey_patch (image : Image)
    (top_left_x top_left_y patch_size r : Nat) :
    ((apply_grey_patch image top_left_x top_left_y patch_size).getD r []).length
      = (image.getD r []).length := by
  unfold apply_grey_patch
  rw [getD_range_map]
  by_cases hr : r < image.length
  · rw [if_pos hr, List.length_map, List.length_range]
  · rw [if_neg hr, List.getD_eq_default _ _ (Nat.le_of_not_lt hr)]

theorem entryAt_apply_grey_patch (image : Image)
    (top_left_x top_left_y patch_size r c : Nat) :
    entryAt (apply_grey_patch image top_left_x top_left_y patch_size) r c =
      if r < image.length ∧ c < (image.getD r []).length ∧
          top_left_y ≤ r ∧ r < top_left_y + patch_size ∧
          top_left_x ≤ c ∧ c < top_left_x + patch_size then
        (entryAt image r c).map fun _ => greyValue
      else entryAt image r c := by
  unfold entryAt apply_grey_patch
  rw [getD_range_map]
  by_cases hr : r < image.length
  · rw [if_pos hr, getD_range_map]
    by_cases hc : c < (image.getD r []).length
    · rw [if_pos hc]
      by_cases hcond : top_left_y ≤ r ∧ r < top_left_y + patch_size ∧
          top_left_x ≤ c ∧ c < top_left_x + patch_size
      · rw [if_pos hcond, if_pos ⟨hr, hc, hcond⟩]
      · rw [if_neg hcond, if_neg (by tauto)]
    · rw [if_neg hc, if_neg (by tauto),
        List.getD_eq_default _ _ (Nat.le_of_not_lt hc)]
  · rw [if_neg hr, if_neg (by tauto),
      List.getD_eq_default _ _ (Nat.le_of_not_lt hr)]

theorem length_setCell (m : List (List ℚ)) (i j : Nat) (v : ℚ) :
    (setCell m i j v).length = m.length := by
  unfold setCell
  exact List.length_set m _ _

theorem rows_setCell (m : List (List ℚ)) (i j : Nat) (v : ℚ) (w : Nat)
    (h : ∀ row ∈ m, row.length = w) :
    ∀ row ∈ setCell m i j v, row.length = w := by
  intro row hrow
  by_cases hi : i < m.length
  · rcases List.mem_or_eq_of_mem_set hrow with h1 | h1
    · exact h row h1
    · rw [h1, List.length_set]
      exact h _ (by rw [List.getD_eq_getElem _ _ hi]; exact List.getElem_mem hi)
  · rw [setCell, List.set_eq_of_length_le (Nat.le_of_not_lt hi)] at hrow
    exact h row hrow

theorem zero_setCell (m : List (List ℚ)) (i j : Nat) (v : ℚ)
    (h : ∀ row ∈ m, ∀ x ∈ row, x = 0) (hv : v = 0) :
    ∀ row ∈ setCell m i j v, ∀ x ∈ row, x = 0 := by
  intro row hrow x hx
  by_cases hi : i < m.length
  · rcases List.mem_or_eq_of_mem_set hrow with h1 | h1
    · exact h row h1 x hx
    · rw [h1] at hx
      rcases List.mem_or_eq_of_mem_set hx with h2 | h2
      · exact h _ (by rw [List.getD_eq_getElem _ _ hi]; exact List.getElem_mem hi)
          x h2
      · rw [h2, hv]
  · rw [setCell, List.set_eq_of_length_le (Nat.le_of_not_lt hi)] at hrow
    exact h row hrow x hx

theorem length_foldl_setCell (base : ℚ) (l : List ((Nat × Nat) × ℚ))
    (m : List (List ℚ)) :
    (l.foldl (fun acc cp => setCell acc cp.1.1 cp.1.2 (base - cp.2)) m).length
      = m.length := by
  induction l generalizing m with
  | nil => rfl
  | cons a t ih => rw [List.foldl_cons, ih, length_setCell]

theorem rows_foldl_setCell (base : ℚ) (l : List ((Nat × Nat) × ℚ))
    (m : List (List ℚ)) (w : Nat) (h : ∀ row ∈ m, row.length = w) :
    ∀ row ∈ l.foldl (fun acc cp => setCell acc cp.1.1 cp.1.2 (base - cp.2)) m,
      row.length = w := by
  induction l generalizing m with
  | nil => exact h
  | cons a t ih =>
      rw [List.foldl_cons]
      exact ih _ (rows_setCell _ _ _ _ _ h)

theorem zero_foldl_setCell (base : ℚ) (l : List ((Nat × Nat) × ℚ))
    (m : List (List ℚ)) (h : ∀ row ∈ m, ∀ x ∈ row, x = 0)
    (hl : ∀ cp ∈ l, base - cp.2 = 0) :
    ∀ row ∈ l.foldl (fun acc cp => setCell acc cp.1.1 cp.1.2 (base - cp.2)) m,
      ∀ x ∈ row, x = 0 := by
  induction l generalizing m with
  | nil => exact h
  | cons a t ih =>
      rw [List.foldl_cons]
      exact ih _ (zero_setCell _ _ _ _ h (hl a (List.mem_cons_self a t)))
        fun cp hcp => hl cp (List.mem_cons_of_mem a hcp)

theorem rows_zerosMap (h w : Nat) : ∀ row ∈ zerosMap h w, row.length = w := by
  intro row hrow
  simp only [zerosMap, List.mem_map] at hrow
  obtain ⟨y, _, rfl⟩ := hrow
  simp

theorem zero_zerosMap (h w : Nat) : ∀ row ∈ zerosMap h w, ∀ x ∈ row, x = 0 := by
  intro row hrow x hx
  simp only [zerosMap, List.mem_map] at hrow
  obtain ⟨y, _, rfl⟩ := hrow
  simp only [List.mem_map] at hx
  obtain ⟨z, _, rfl⟩ := hx
  rfl

theorem zero_atD (src : List (List ℚ)) (h : ∀ row ∈ src, ∀ v ∈ row, v = 0)
    (r c : Nat) : atD src r c = 0 := by
  unfold atD
  by_cases hr : r < src.length
  · have hmem : src.getD r [] ∈ src := by
      rw [List.getD_eq_getElem _ _ hr]; exact List.getElem_mem hr
    by_cases hc : c < (src.getD r []).length
    · exact h _ hmem _ (by rw [List.getD_eq_getElem _ _ hc]; exact List.getElem_mem hc)
    · exact List.getD_eq_default _ _ (Nat.le_of_not_lt hc)
  · rw [List.getD_eq_default _ _ (Nat.le_of_not_lt hr)]
    rfl

theorem zero_bilinearAt (src : List (List ℚ))
    (h : ∀ row ∈ src, ∀ v ∈ row, v = 0) (srcH srcW dstH dstW y x : Nat) :
    bilinearAt src srcH srcW dstH dstW y x = 0 := by
  unfold bilinearAt
  simp [zero_atD src h]

theorem zero_cv2_resize (src : List (List ℚ)) (dsize : Nat × Nat)
    (h : ∀ row ∈ src, ∀ v ∈ row, v = 0) :
    ∀ row ∈ cv2_resize src dsize, ∀ v ∈ row, v = 0 := by
  intro row hrow v hv
  simp only [cv2_resize, List.mem_map] at hrow
  obtain ⟨y, _, rfl⟩ := hrow
  simp only [List.mem_map] at hv
  obtain ⟨x, _, rfl⟩ := hv
  exact zero_bilinearAt src h _ _ _ _ y x

theorem length_cv2_resize (src : List (List ℚ)) (dsize : Nat × Nat) :
    (cv2_resize src dsize).length = dsize.2 := by
  simp [cv2_resize]

theorem rows_cv2_resize (src : List (List ℚ)) (dsize : Nat × Nat) :
    ∀ row ∈ cv2_resize src dsize, row.length = dsize.1 := by
  intro row hrow
  simp only [cv2_resize, List.mem_map] at hrow
  obtain ⟨y, _, rfl⟩ := hrow
  simp

theorem length_coordinates (h w : Nat) : (coordinates h w).length = h * w := by
  simp [coordinates, List.length_flatMap, Function.comp_def, Nat.mul_comm]

theorem length_target_class_predictions (model : Model) (image : Image)
    (class_index patch_size : Nat) :
    (target_class_predictions model image class_index patch_size).length =
      ceilDiv (shape0 image) patch_size * ceilDiv (shape1 image) patch_size := by
  simp [target_class_predictions, List.length_flatMap, Function.comp_def,
    length_pyRange, Nat.mul_comm]

theorem nodup_coordinates (h w : Nat) : (coordinates h w).Nodup := by
  unfold coordinates
  refine List.nodup_flatMap.mpr ⟨?_, ?_⟩
  · intro x _
    exact (List.nodup_range h).map fun a b hab => congrArg Prod.fst hab
  · refine List.Pairwise.imp ?_ (List.pairwise_lt_range w)
    intro a b hab cell hcell1 hcell2
    simp only [List.mem_map] at hcell1 hcell2
    obtain ⟨y1, _, rfl⟩ := hcell1
    obtain ⟨y2, _, heq⟩ := hcell2
    obtain ⟨-, hba⟩ := Prod.mk.inj heq
    omega

theorem mem_coordinates (h w index_y index_x : Nat) (hy : index_y < h)
    (hx : index_x < w) : (index_y, index_x) ∈ coordinates h w := by
  unfold coordinates
  exact List.mem_flatMap.mpr ⟨index_x, List.mem_range.mpr hx,
    List.mem_map.mpr ⟨index_y, List.mem_range.mpr hy, rfl⟩⟩

theorem coordinates_bounds (h w : Nat) :
    ∀ cell ∈ coordinates h w, cell.1 < h ∧ cell.2 < w := by
  intro cell hcell
  unfold coordinates at hcell
  obtain ⟨ix, hix, hcell⟩ := List.mem_flatMap.mp hcell
  obtain ⟨iy, hiy, rfl⟩ := List.mem_map.mp hcell
  exact ⟨List.mem_range.mp hiy, List.mem_range.mp hix⟩

theorem ceilDiv_self (p : Nat) (hp : 0 < p) : ceilDiv p p = 1 := by
  unfold ceilDiv
  have h : p + p - 1 = (p - 1) + 1 * p := by omega
  rw [h, Nat.add_mul_div_right _ _ hp, Nat.div_eq_of_lt (by omega)]

theorem pyRange_self (p : Nat) (hp : 0 < p) : pyRange p p = [0] := by
  unfold pyRange
  rw [ceilDiv_self p hp]
  simp [List.range_succ]

theorem grid_ext (a b : Image) (hlen : a.length = b.length)
    (hrow : ∀ r : Nat, (a.getD r []).length = (b.getD r []).length)
    (hentry : ∀ r c : Nat, entryAt a r c = entryAt b r c) : a = b := by
  apply List.ext_getElem hlen
  intro r hr1 hr2
  have h1 : a[r] = a.getD r [] := (List.getD_eq_getElem _ _ hr1).symm
  have h2 : b[r] = b.getD r [] := (List.getD_eq_getElem _ _ hr2).symm
  rw [h1, h2]
  apply List.ext_getElem (hrow r)
  intro c hc1 hc2
  have e1 : (a.getD r [])[c] = entryAt a r c :=
    (List.getD_eq_getElem _ _ hc1).symm
  have e2 : (b.getD r [])[c] = entryAt b r c :=
    (List.getD_eq_getElem _ _ hc2).symm
  rw [e1, e2, hentry r c]

theorem entryAt_nil_of_out (image : Image) (r c : Nat)
    (h : image.length ≤ r ∨ (image.getD r []).length ≤ c) :
    entryAt image r c = [] := by
  unfold entryAt
  rcases h with h | h
  · rw [List.getD_eq_default image [] h]
    rfl
  · rw [List.getD_eq_default _ _ h]

theorem length_greyAll (image : Image) :
    (greyAll image).length = image.length := by
  unfold greyAll
  rw [List.length_map]

theorem row_length_greyAll (image : Image) (r : Nat) :
    ((greyAll image).getD r []).length = (image.getD r []).length := by
  by_cases hr : r < image.length
  · unfold greyAll
    rw [List.getD_eq_getElem _ _ (by simpa using hr), List.getElem_map,
      List.length_map, List.getD_eq_getElem _ _ hr]
  · have hge : (greyAll image).length ≤ r := by
      rw [length_greyAll]
      exact Nat.le_of_not_lt hr
    rw [List.getD_eq_default (greyAll image) [] hge,
      List.getD_eq_default image [] (Nat.le_of_not_lt hr)]

theorem entryAt_greyAll (image : Image) (r c : Nat) :
    entryAt (greyAll image) r c =
      (entryAt image r c).map fun _ => greyValue := by
  unfold entryAt
  by_cases hr : r < image.length
  · have hga : (greyAll image).getD r [] =
        (image.getD r []).map fun px => px.map fun _ => greyValue := by
      unfold greyAll
      rw [List.getD_eq_getElem _ _ (by simpa using hr), List.getElem_map,
        List.getD_eq_getElem _ _ hr]
    rw [hga]
    by_cases hc : c < (image.getD r []).length
    · rw [List.getD_eq_getElem _ _ (by simpa using hc), List.getElem_map,
        List.getD_eq_getElem _ _ hc]
    · rw [List.getD_eq_default _ _ (by simpa using Nat.le_of_not_lt hc),
        List.getD_eq_default _ _ (Nat.le_of_not_lt hc)]
      rfl
  · have hge : (greyAll image).length ≤ r := by
      rw [length_greyAll]
      exact Nat.le_of_not_lt hr
    rw [List.getD_eq_default (greyAll image) [] hge,
      List.getD_eq_default image [] (Nat.le_of_not_lt hr)]
    rfl

theorem apply_grey_patch_full (image : Image) (patch_size : Nat)
    (h0 : shape0 image = patch_size) (h1 : shape1 image = patch_size)
    (hrect : Rectangular image) :
    apply_grey_patch image 0 0 patch_size = greyAll image := by
  have hlen : image.length = patch_size := h0
  apply grid_ext
  · rw [length_apply_grey_patch, length_greyAll]
  · intro r
    rw [row_length_apply_grey_patch, row_length_greyAll]
  · intro r c
    rw [entryAt_apply_grey_patch, entryAt_greyAll]
    by_cases hr : r < image.length
    · by_cases hc : c < (image.getD r []).length
      · have hrow : (image.getD r []).length = shape1 image := by
          rw [List.getD_eq_getElem _ _ hr]
          exact hrect image[r] (List.getElem_mem hr)
        rw [if_pos ⟨hr, hc, Nat.zero_le r, by omega, Nat.zero_le c, by
          rw [hrow, h1] at hc; omega⟩]
      · rw [if_neg (by tauto),
          entryAt_nil_of_out image r c (Or.inr (Nat.le_of_not_lt hc))]
        rfl
    · rw [if_neg (by tauto),
        entryAt_nil_of_out image r c (Or.inl (Nat.le_of_not_lt hr))]
      rfl

/-! ### Claim theorems -/

/-- C1: at the failing input — the 2×2 image `img2x2` with distinct pixel
values, `patch_size = 1`, and a model whose class-0 confidence is the value of
the pixel at row 0, column 1 — the pre-resize sensitivity map is
`[[0, 0], [-251/2, 0]]`: the value `baseline − confidence(occluding cell
(0,1)'s own region)`, which is `-251/2`, is recorded at cell `(1, 0)`, not at
cell `(0, 1)` as the claim requires, so cell `(0, 1)` (which holds `0`)
differs from `baseline − confidence` for its own occluded region.  The code
occludes the transposed region for each grid cell. -/
theorem grid_cell_occludes_transposed_region :
    sensitivity_map probeModel img2x2 0 1 = [[0, 0], [-(251 / 2 : ℚ), 0]] ∧
    predict_class probeModel img2x2 0 -
        predict_class probeModel (apply_grey_patch img2x2 1 0 1) 0 =
      -(251 / 2 : ℚ) ∧
    ((sensitivity_map probeModel img2x2 0 1).getD 0 []).getD 1 0 ≠
      predict_class probeModel img2x2 0 -
        predict_class probeModel (apply_grey_patch img2x2 1 0 1) 0 := by
  refine ⟨?_, ?_, ?_⟩ <;>
    norm_num [sensitivity_map, coordinates, target_class_predictions,
      predict_class, probeModel, img2x2, apply_grey_patch, pyRange, ceilDiv,
      shape0, shape1, zerosMap, setCell, greyValue, List.range_succ, List.set,
      List.getD, List.getElem_cons_succ, List.getElem_cons_zero]

/-- C2: at the failing input — the 2×4 image `img2x4` (height 2, width 4)
with `patch_size = 2` — `get_sensitivity_map` returns an array of height 4
and width 2, the transpose of the claimed height-2, width-4 shape: the code
passes `image.shape[0:2] = (H, W)` as cv2's `dsize`, which cv2 reads as
`(width, height)`. -/
theorem resize_output_transposed_for_nonsquare :
    shape0 img2x4 = 2 ∧ shape1 img2x4 = 4 ∧
    (occNone.get_sensitivity_map constModel09 img2x4 0 2).length = 4 ∧
    (∀ row ∈ occNone.get_sensitivity_map constModel09 img2x4 0 2,
      row.length = 2) ∧
    (occNone.get_sensitivity_map constModel09 img2x4 0 2).length ≠
      shape0 img2x4 := by
  refine ⟨rfl, rfl, ?_, ?_, ?_⟩
  · rw [OcclusionSensitivity.get_sensitivity_map, length_cv2_resize]
    rfl
  · intro row hrow
    rw [OcclusionSensitivity.get_sensitivity_map] at hrow
    exact rows_cv2_resize _ _ row hrow
  · rw [OcclusionSensitivity.get_sensitivity_map, length_cv2_resize]
    decide

/-- C4: for every model, image, class index and positive patch size, the
pre-resize sensitivity map has `ceil(H / patch_size)` rows each of length
`ceil(W / patch_size)`; the sweep records exactly
`ceil(H / patch_size) * ceil(W / patch_size)` patched predictions — one per
grid cell — and the batches passed to the model number
`1 + ceil(H / patch_size) * ceil(W / patch_size)` in total, the baseline
first, each recorded prediction coming from exactly one of the remaining
batches in order. -/
theorem map_shape_and_inference_count (model : Model) (image : Image)
    (class_index patch_size : Nat) (hp : 0 < patch_size) :
    (sensitivity_map model image class_index patch_size).length =
      ceilDiv (shape0 image) patch_size ∧
    (∀ row ∈ sensitivity_map model image class_index patch_size,
      row.length = ceilDiv (shape1 image) patch_size) ∧
    (target_class_predictions model image class_index patch_size).length =
      ceilDiv (shape0 image) patch_size * ceilDiv (shape1 image) patch_size ∧
    (inference_batches image patch_size).length =
      1 + ceilDiv (shape0 image) patch_size *
        ceilDiv (shape1 image) patch_size ∧
    target_class_predictions model image class_index patch_size =
      (inference_batches image patch_size).tail.map
        fun batch => ((model batch 1).headD []).getD class_index 0 := by
  refine ⟨?_, ?_, ?_, ?_, ?_⟩
  · simp only [sensitivity_map]
    rw [length_foldl_setCell]
    simp [zerosMap]
  · simp only [sensitivity_map]
    exact rows_foldl_setCell _ _ _ _ (rows_zerosMap _ _)
  · exact length_target_class_predictions model image class_index patch_size
  · simp [inference_batches, List.length_flatMap, Function.comp_def,
      length_pyRange, Nat.mul_comm, Nat.add_comm]
  · simp only [inference_batches, List.tail_cons, target_class_predictions,
      List.map_flatMap, List.map_map, Function.comp_def, predict_class]

/-- C4 witness: the 2×4 image with patch size 2 instantiates the hypothesis:
a 1×2 grid, 2 recorded predictions, 3 batches in total. -/
theorem map_shape_and_inference_count_witness :
    0 < 2 ∧
    ((sensitivity_map constModel09 img2x4 0 2).length =
        ceilDiv (shape0 img2x4) 2 ∧
      (∀ row ∈ sensitivity_map constModel09 img2x4 0 2,
        row.length = ceilDiv (shape1 img2x4) 2) ∧
      (target_class_predictions constModel09 img2x4 0 2).length =
        ceilDiv (shape0 img2x4) 2 * ceilDiv (shape1 img2x4) 2 ∧
      (inference_batches img2x4 2).length =
        1 + ceilDiv (shape0 img2x4) 2 * ceilDiv (shape1 img2x4) 2 ∧
      target_class_predictions constModel09 img2x4 0 2 =
        (inference_batches img2x4 2).tail.map
          fun batch => ((constModel09 batch 1).headD []).getD 0 0) :=
  ⟨Nat.zero_lt_two,
    map_shape_and_inference_count constModel09 img2x4 0 2 Nat.zero_lt_two⟩

/-- C7: the computation is deterministic — for any two models that agree as
functions (two runs of one deterministic model), `get_sensitivity_map` and
`explain` return identical results on identical images, class index, patch
size and colormap. -/
theorem deterministic_model_deterministic_map (self : OcclusionSensitivity)
    (m1 m2 : Model)
    (heatmap_display : List (List ℚ) → Image → Nat → Image)
    (grid_display : List Image → Image) (images : List Image)
    (labels : List (List ℚ)) (image : Image)
    (class_index patch_size colormap : Nat)
    (hdet : ∀ batch bs, m1 batch bs = m2 batch bs) :
    self.get_sensitivity_map m1 image class_index patch_size =
      self.get_sensitivity_map m2 image class_index patch_size ∧
    self.explain heatmap_display grid_display (images, labels) m1 class_index
        patch_size colormap =
      self.explain heatmap_display grid_display (images, labels) m2
        class_index patch_size colormap := by
  have hm : m1 = m2 := funext fun b => funext fun bs => hdet b bs
  rw [hm]
  exact ⟨rfl, rfl⟩

/-- C7 witness: the hypotheses are satisfiable — two runs of the constant
model on the concrete 2×2 image give identical maps and grids. -/
theorem deterministic_model_deterministic_map_witness :
    (∀ batch bs, constModel09 batch bs = constModel09 batch bs) ∧
    (occNone.get_sensitivity_map constModel09 img2x2 0 1 =
        occNone.get_sensitivity_map constModel09 img2x2 0 1 ∧
      occNone.explain (fun _ i _ => i) (fun l => l.headD []) ([img2x2], [])
          constModel09 0 1 3 =
        occNone.explain (fun _ i _ => i) (fun l => l.headD []) ([img2x2], [])
          constModel09 0 1 3) :=
  ⟨fun _ _ => rfl,
    deterministic_model_deterministic_map occNone constModel09 constModel09
      (fun _ i _ => i) (fun l => l.headD []) [img2x2] [] img2x2 0 1 3
      fun _ _ => rfl⟩

/-- C8: for every positive patch size, the `coordinates` list has the same
length as the recorded-prediction list, has no duplicate entries, contains
every in-range grid cell of the pre-resize map, and contains only in-range
cells — it enumerates each grid cell exactly once, so the delta-recording
pass assigns every cell exactly once. -/
theorem coordinates_enumerate_each_cell_once (model : Model) (image : Image)
    (class_index patch_size : Nat) (hp : 0 < patch_size) :
    (coordinates (ceilDiv (shape0 image) patch_size)
        (ceilDiv (shape1 image) patch_size)).length =
      (target_class_predictions model image class_index patch_size).length ∧
    (coordinates (ceilDiv (shape0 image) patch_size)
      (ceilDiv (shape1 image) patch_size)).Nodup ∧
    (∀ index_y index_x : Nat,
      index_y < ceilDiv (shape0 image) patch_size →
      index_x < ceilDiv (shape1 image) patch_size →
      (index_y, index_x) ∈ coordinates (ceilDiv (shape0 image) patch_size)
        (ceilDiv (shape1 image) patch_size)) ∧
    (∀ cell ∈ coordinates (ceilDiv (shape0 image) patch_size)
        (ceilDiv (shape1 image) patch_size),
      cell.1 < ceilDiv (shape0 image) patch_size ∧
      cell.2 < ceilDiv (shape1 image) patch_size) := by
  refine ⟨?_, nodup_coordinates _ _, ?_, coordinates_bounds _ _⟩
  · rw [length_coordinates,
      length_target_class_predictions model image class_index patch_size]
  · intro index_y index_x hy hx
    exact mem_coordinates _ _ _ _ hy hx

/-- C8 witness: the concrete 2×2 image with patch size 1 instantiates the
hypothesis; cell `(1, 0)` is listed. -/
theorem coordinates_enumerate_each_cell_once_witness :
    0 < 1 ∧
    (1, 0) ∈ coordinates (ceilDiv (shape0 img2x2) 1)
      (ceilDiv (shape1 img2x2) 1) :=
  ⟨Nat.one_pos,
    (coordinates_enumerate_each_cell_once probeModel img2x2 0 1
      Nat.one_pos).2.2.1 1 0 (by decide) (by decide)⟩

/-- C3: for every image and every model whose class confidence is one constant
`k` on all inputs, every entry of the pre-resize sensitivity map and of the
resized map returned by `get_sensitivity_map` is zero. -/
theorem constant_model_gives_all_zero_map (self : OcclusionSensitivity)
    (model : Model) (image : Image) (class_index patch_size : Nat) (k : ℚ)
    (h : ∀ x : Image, predict_class model x class_index = k) :
    (∀ row ∈ sensitivity_map model image class_index patch_size,
      ∀ v ∈ row, v = 0) ∧
    (∀ row ∈ self.get_sensitivity_map model image class_index patch_size,
      ∀ v ∈ row, v = 0) := by
  have hpre : ∀ row ∈ sensitivity_map model image class_index patch_size,
      ∀ v ∈ row, v = 0 := by
    simp only [sensitivity_map]
    refine zero_foldl_setCell _ _ _ (zero_zerosMap _ _) ?_
    intro cp hcp
    have h2 : cp.2 ∈ target_class_predictions model image class_index
        patch_size := (List.of_mem_zip hcp).2
    unfold target_class_predictions at h2
    obtain ⟨top_left_y, _, hmem⟩ := List.mem_flatMap.mp h2
    obtain ⟨top_left_x, _, heq⟩ := List.mem_map.mp hmem
    rw [h image, ← heq, h]
    exact sub_self k
  refine ⟨hpre, ?_⟩
  intro row hrow
  rw [OcclusionSensitivity.get_sensitivity_map] at hrow
  exact zero_cv2_resize _ _ hpre row hrow

/-- C3 witness: the spec's end-to-end scenario — the 4×4 constant image of
value 100, the unconditional-0.9 model and patch size 2 — satisfies the
hypothesis; the 2×2 pre-resize grid and the resized 4×4 map are all zeros. -/
theorem constant_model_gives_all_zero_map_witness :
    (∀ x : Image, predict_class constModel09 x 0 = 9 / 10) ∧
    ((∀ row ∈ sensitivity_map constModel09 img4x4 0 2, ∀ v ∈ row, v = 0) ∧
      (∀ row ∈ occNone.get_sensitivity_map constModel09 img4x4 0 2,
        ∀ v ∈ row, v = 0)) ∧
    sensitivity_map constModel09 img4x4 0 2 = [[0, 0], [0, 0]] ∧
    occNone.get_sensitivity_map constModel09 img4x4 0 2 =
      [[0, 0, 0, 0], [0, 0, 0, 0], [0, 0, 0, 0], [0, 0, 0, 0]] :=
  ⟨fun _ => rfl,
    constant_model_gives_all_zero_map occNone constModel09 img4x4 0 2 (9 / 10)
      fun _ => rfl,
    by
      norm_num [sensitivity_map, coordinates, target_class_predictions,
        predict_class, constModel09, img4x4, apply_grey_patch, pyRange,
        ceilDiv, shape0, shape1, zerosMap, setCell, greyValue,
        List.range_succ, List.set, List.getD, List.getElem_cons_succ,
        List.getElem_cons_zero],
    by
      norm_num [sensitivity_map, coordinates, target_class_predictions,
        predict_class, constModel09, img4x4, apply_grey_patch, pyRange,
        ceilDiv, shape0, shape1, zerosMap, setCell, greyValue,
        List.range_succ, List.set, List.getD,
        OcclusionSensitivity.get_sensitivity_map, cv2_resize, bilinearAt,
        atD, clampIdx, occNone, List.getElem_cons_succ,
        List.getElem_cons_zero]⟩

/-- C5: for every patch position processed in the sweep (and in fact for
every patch position), the patched image has exactly the shape of the
original image — nothing outside the image is written — and any entry that
changes lies inside the image bounds and inside the patch rectangle; boundary
patches are thereby clipped at the image boundary. -/
theorem patches_clipped_within_bounds (image : Image)
    (patch_size top_left_x top_left_y : Nat) (hp : 0 < patch_size)
    (hy : top_left_y ∈ pyRange (shape1 image) patch_size)
    (hx : top_left_x ∈ pyRange (shape0 image) patch_size) :
    (apply_grey_patch image top_left_x top_left_y patch_size).length =
      shape0 image ∧
    (∀ r : Nat,
      ((apply_grey_patch image top_left_x top_left_y patch_size).getD r
          []).length = (image.getD r []).length) ∧
    (∀ r c : Nat,
      entryAt (apply_grey_patch image top_left_x top_left_y patch_size) r c ≠
        entryAt image r c →
      r < shape0 image ∧ c < (image.getD r []).length ∧
      top_left_y ≤ r ∧ r < top_left_y + patch_size ∧
      top_left_x ≤ c ∧ c < top_left_x + patch_size) := by
  refine ⟨length_apply_grey_patch image top_left_x top_left_y patch_size,
    fun r => row_length_apply_grey_patch image top_left_x top_left_y
      patch_size r, ?_⟩
  intro r c hne
  rw [entryAt_apply_grey_patch] at hne
  by_cases hcond : r < image.length ∧ c < (image.getD r []).length ∧
      top_left_y ≤ r ∧ r < top_left_y + patch_size ∧
      top_left_x ≤ c ∧ c < top_left_x + patch_size
  · exact hcond
  · rw [if_neg hcond] at hne
    exact absurd rfl hne

/-- C5 witness: for the 3×3 image with patch size 2 the boundary patch at
top-left `(2, 2)` is a position the sweep processes, and the theorem's
hypotheses hold there. -/
theorem patches_clipped_within_bounds_witness :
    (0 < 2 ∧ 2 ∈ pyRange (shape1 img3x3) 2 ∧ 2 ∈ pyRange (shape0 img3x3) 2) ∧
    ((apply_grey_patch img3x3 2 2 2).length = shape0 img3x3 ∧
      (∀ r : Nat,
        ((apply_grey_patch img3x3 2 2 2).getD r []).length =
          (img3x3.getD r []).length) ∧
      (∀ r c : Nat,
        entryAt (apply_grey_patch img3x3 2 2 2) r c ≠ entryAt img3x3 r c →
        r < shape0 img3x3 ∧ c < (img3x3.getD r []).length ∧
        2 ≤ r ∧ r < 2 + 2 ∧ 2 ≤ c ∧ c < 2 + 2)) :=
  ⟨⟨by decide, by decide, by decide⟩,
    patches_clipped_within_bounds img3x3 2 2 2 (by decide) (by decide)
      (by decide)⟩

/-- C6: when the image's height and width both equal the patch size, the
pre-resize sensitivity map is the single cell
`[[baseline − confidence(entire image occluded)]]`. -/
theorem full_image_patch_single_cell (model : Model) (image : Image)
    (class_index patch_size : Nat) (hp : 0 < patch_size)
    (h0 : shape0 image = patch_size) (h1 : shape1 image = patch_size)
    (hrect : Rectangular image) :
    sensitivity_map model image class_index patch_size =
      [[predict_class model image class_index -
          predict_class model (greyAll image) class_index]] := by
  have hceil0 : ceilDiv (shape0 image) patch_size = 1 := by
    rw [h0]
    exact ceilDiv_self patch_size hp
  have hceil1 : ceilDiv (shape1 image) patch_size = 1 := by
    rw [h1]
    exact ceilDiv_self patch_size hp
  have htcp : target_class_predictions model image class_index patch_size =
      [predict_class model (greyAll image) class_index] := by
    unfold target_class_predictions
    rw [h0, h1, pyRange_self patch_size hp]
    simp [apply_grey_patch_full image patch_size h0 h1 hrect]
  simp only [sensitivity_map]
  rw [hceil0, hceil1, htcp]
  rfl

/-- C6 witness: the 2×2 image with patch size 2 satisfies the hypotheses; its
map is the single-cell full-occlusion delta. -/
theorem full_image_patch_single_cell_witness :
    (0 < 2 ∧ shape0 img2x2 = 2 ∧ shape1 img2x2 = 2 ∧ Rectangular img2x2) ∧
    sensitivity_map probeModel img2x2 0 2 =
      [[predict_class probeModel img2x2 0 -
          predict_class probeModel (greyAll img2x2) 0]] :=
  ⟨⟨by decide, rfl, rfl, by unfold Rectangular; decide⟩,
    full_image_patch_single_cell probeModel img2x2 0 2 (by decide) rfl rfl
      (by unfold Rectangular; decide)⟩

/-- C9: every batch the computation passes to the model is a singleton — the
result depends only on the model's answers on one-image batches with batch
size 1 — and the `batch_size` stored by the constructor has no effect:
instances with different `batch_size` return equal results from
`get_sensitivity_map` and `explain`. -/
theorem singleton_batches_and_batch_size_ignored
    (self1 self2 : OcclusionSensitivity) (m1 m2 : Model)
    (heatmap_display : List (List ℚ) → Image → Nat → Image)
    (grid_display : List Image → Image) (images : List Image)
    (labels : List (List ℚ)) (image : Image)
    (class_index patch_size colormap : Nat)
    (hagree : ∀ batch : List Image, batch.length = 1 →
      m1 batch 1 = m2 batch 1) :
    (∀ batch ∈ inference_batches image patch_size, batch.length = 1) ∧
    self1.get_sensitivity_map m1 image class_index patch_size =
      self2.get_sensitivity_map m2 image class_index patch_size ∧
    self1.explain heatmap_display grid_display (images, labels) m1 class_index
        patch_size colormap =
      self2.explain heatmap_display grid_display (images, labels) m2
        class_index patch_size colormap := by
  have hpc : ∀ (x : Image) (ci : Nat),
      predict_class m1 x ci = predict_class m2 x ci := by
    intro x ci
    unfold predict_class
    rw [hagree [x] rfl]
  have htcp : ∀ (x : Image) (ci p : Nat),
      target_class_predictions m1 x ci p =
        target_class_predictions m2 x ci p := by
    intro x ci p
    unfold target_class_predictions
    congr 1
    funext top_left_y
    congr 1
    funext top_left_x
    exact hpc _ ci
  have hgsm : ∀ x : Image,
      self1.get_sensitivity_map m1 x class_index patch_size =
        self2.get_sensitivity_map m2 x class_index patch_size := by
    intro x
    unfold OcclusionSensitivity.get_sensitivity_map sensitivity_map
    rw [hpc x class_index, htcp x class_index patch_size]
  refine ⟨?_, hgsm image, ?_⟩
  · intro batch hbatch
    rcases List.mem_cons.mp hbatch with h | h
    · rw [h]
      rfl
    · obtain ⟨top_left_y, _, hmem⟩ := List.mem_flatMap.mp h
      obtain ⟨top_left_x, _, heq⟩ := List.mem_map.mp hmem
      rw [← heq]
      rfl
  · have hf : (fun x => self1.get_sensitivity_map m1 x class_index patch_size)
        = fun x => self2.get_sensitivity_map m2 x class_index patch_size :=
      funext hgsm
    unfold OcclusionSensitivity.explain
    rw [hf]

/-- C9 witness: instances with `batch_size=5` and `batch_size=None` agree on
the concrete 2×2 image under the constant model; every batch is a
singleton. -/
theorem singleton_batches_and_batch_size_ignored_witness :
    (∀ batch : List Image, batch.length = 1 →
      constModel09 batch 1 = constModel09 batch 1) ∧
    ((∀ batch ∈ inference_batches img2x2 1, batch.length = 1) ∧
      (OcclusionSensitivity.mk (some 5)).get_sensitivity_map constModel09
          img2x2 0 1 =
        occNone.get_sensitivity_map constModel09 img2x2 0 1 ∧
      (OcclusionSensitivity.mk (some 5)).explain (fun _ i _ => i)
          (fun l => l.headD []) ([img2x2], []) constModel09 0 1 3 =
        occNone.explain (fun _ i _ => i) (fun l => l.headD [])
          ([img2x2], []) constModel09 0 1 3) :=
  ⟨fun _ _ => rfl,
    singleton_batches_and_batch_size_ignored (OcclusionSensitivity.mk (some 5))
      occNone constModel09 constModel09 (fun _ i _ => i) (fun l => l.headD [])
      [img2x2] [] img2x2 0 1 3 fun _ _ => rfl⟩

/-- C10: `explain` unpacks `validation_data` as `(images, _)` and never reads
the labels: for any two label components the returned grids are equal. -/
theorem labels_never_read (self : OcclusionSensitivity)
    (heatmap_display : List (List ℚ) → Image → Nat → Image)
    (grid_display : List Image → Image) (images : List Image)
    (labels1 labels2 : List (List ℚ)) (model : Model)
    (class_index patch_size colormap : Nat) :
    self.explain heatmap_display grid_display (images, labels1) model
        class_index patch_size colormap =
      self.explain heatmap_display grid_display (images, labels2) model
        class_index patch_size colormap := rfl

end TfExplain
